import Mathlib

/-!
Verification of the content-analysis engine of the Content Optimization Suite.

The repository contains two Python implementations of the engine:
* `src/src/content_optimizer.py`, class `ContentAnalyzer` (methods `analyze`,
  `get_top_keywords`, `calculate_readability`, `calculate_seo_score`,
  `calculate_keyword_density`, `get_optimization_suggestions`);
* `src/content_optimizer.py`, class `ContentOptimizer` (methods
  `analyze_content`, `calculate_seo_score`, `calculate_keyword_density`,
  `get_optimization_suggestions`).

Both are embedded below.  Text is modelled as `List Char`; Python floats are
modelled as exact rationals (`ℚ`), with `round(x, n)` modelled as exact
round-half-to-even on rationals; Python dictionaries passed to the suggestion
engine are modelled as records of `Option` fields, with `d['k']` raising
`KeyError` modelled as `Except String`.
-/

/-- Python `str.isspace` / `\s` / `split()` whitespace, ASCII fragment:
space, tab, newline, carriage return, vertical tab, form feed. -/
def isPyWs (c : Char) : Bool :=
  c = ' ' || c = '\t' || c = '\n' || c = '\r' || c = '\x0b' || c = '\x0c'

/-- A regex `\w` word character (ASCII fragment): letter (code points 65-90
and 97-122), digit (48-57) or underscore. -/
def isWordChar (c : Char) : Bool :=
  (65 ≤ c.toNat && c.toNat ≤ 90) || (97 ≤ c.toNat && c.toNat ≤ 122) ||
    (48 ≤ c.toNat && c.toNat ≤ 57) || c = '_'

/-- A sentence-terminating punctuation character, as in the regex `[.!?]+`. -/
def isSentPunct (c : Char) : Bool :=
  c = '.' || c = '!' || c = '?'

/-- The maximal runs of characters satisfying `p`, in order.  `runs isWordChar`
models `re.findall(r'\b\w+\b', s)`, i.e. the list of maximal word-character
runs; `runs isSentPunct` models `re.findall(r'[.!?]+', s)`; and
`runs (fun c => !isPyWs c)` models `s.split()`. -/
def runsAux (p : Char → Bool) (acc : List Char) : List Char → List (List Char)
  | [] => if acc.isEmpty then [] else [acc.reverse]
  | c :: rest =>
    if p c then runsAux p (c :: acc) rest
    else if acc.isEmpty then runsAux p [] rest
    else acc.reverse :: runsAux p [] rest

def runs (p : Char → Bool) (l : List Char) : List (List Char) :=
  runsAux p [] l

/-- `content.split()` in Python: maximal non-whitespace runs. -/
def pySplit (l : List Char) : List (List Char) :=
  runs (fun c => !isPyWs c) l

/-- `re.findall` of word runs (the token list used for keyword analysis). -/
def findWords (l : List Char) : List (List Char) :=
  runs isWordChar l

/-- Number of sentence-punctuation runs, `len(re.findall(r'[.!?]+', content))`. -/
def sentenceCount (l : List Char) : ℕ :=
  (runs isSentPunct l).length

/-- Python `content.split('\n\n')`: split on each non-overlapping occurrence of
the two-character separator, scanning left to right. -/
def splitParas : List Char → List (List Char)
  | [] => [[]]
  | '\n' :: '\n' :: rest => [] :: splitParas rest
  | c :: rest =>
    match splitParas rest with
    | [] => [[c]]
    | s :: ss => (c :: s) :: ss

/-- `len([p for p in content.split('\n\n') if p.strip()])`: a block survives
iff it contains a non-whitespace character. -/
def paragraphCount (l : List Char) : ℕ :=
  ((splitParas l).filter (fun p => !p.all isPyWs)).length

/-- Scanner for `countSub`: while `skip` is positive the position is inside a
previous match and is passed over; at `skip = 0` a match of `needle` here
counts once and the rest of the match is skipped. -/
def countSubAux (needle : List Char) (skip : ℕ) : List Char → ℕ
  | [] => 0
  | c :: rest =>
    match skip with
    | n + 1 => countSubAux needle n rest
    | 0 =>
      if needle.isPrefixOf (c :: rest) then
        1 + countSubAux needle (needle.length - 1) rest
      else
        countSubAux needle 0 rest

/-- Python `str.count(needle)`: number of non-overlapping occurrences,
scanning left to right (only ever called with a non-empty needle). -/
def countSub (needle hay : List Char) : ℕ :=
  if needle.isEmpty then 0 else countSubAux needle 0 hay

/-- The rational value of a natural number, written so that it evaluates by
kernel reduction (the `Nat.cast` instance path does not); `natQ_eq` below
shows it is the ordinary cast. -/
def natQ (n : ℕ) : ℚ :=
  mkRat n 1

/-- Exact division of rationals, written so that it evaluates by kernel
reduction (`Rat.inv` does not); `ratDiv_eq_div` below shows it is ordinary
field division on `ℚ`. -/
def ratDiv (a b : ℚ) : ℚ :=
  if 0 ≤ b.num then mkRat (a.num * b.den) (a.den * b.num.toNat)
  else mkRat (-(a.num * b.den)) (a.den * (-b.num).toNat)

/-- Exact multiplication of rationals, written so that it evaluates by kernel
reduction (`Rat.mul` is `@[irreducible]`); `ratMul_eq_mul` below shows it is
ordinary multiplication on `ℚ`. -/
def ratMul (a b : ℚ) : ℚ :=
  mkRat (a.num * b.num) (a.den * b.den)

/-- Exact subtraction of rationals, written so that it evaluates by kernel
reduction; `ratSub_eq_sub` below shows it is ordinary subtraction on `ℚ`. -/
def ratSub (a b : ℚ) : ℚ :=
  mkRat (a.num * b.den - b.num * a.den) (a.den * b.den)

/-- Round-half-to-even to the nearest integer (Python `round` semantics,
on exact rationals). -/
def roundHE (q : ℚ) : ℤ :=
  let f := q.floor
  if ratSub q (mkRat f 1) < mkRat 1 2 then f
  else if mkRat 1 2 < ratSub q (mkRat f 1) then f + 1
  else if f % 2 = 0 then f else f + 1

/-- Python `round(q, d)` on exact rationals. -/
def pyRound (d : ℕ) (q : ℚ) : ℚ :=
  mkRat (roundHE (ratMul q (natQ (10 ^ d)))) (10 ^ d)

/-- The stop-word set shared verbatim by both implementations. -/
def stopWords : List (List Char) :=
  (["the", "a", "an", "and", "or", "but", "in", "on", "at", "to", "for",
    "of", "with", "by", "is", "are", "was", "were", "be", "been", "being",
    "have", "has", "had", "do", "does", "did", "will", "would", "could",
    "should", "may", "might", "must", "can", "this", "that", "these",
    "those", "i", "you", "he", "she", "it", "we", "they", "me", "him",
    "her", "us", "them"]).map String.data

/-- Worker for `dedupFS`, carrying the set of words already emitted. -/
def dedupFSAux (seen : List (List Char)) : List (List Char) → List (List Char)
  | [] => []
  | w :: rest =>
    if seen.contains w then dedupFSAux seen rest
    else w :: dedupFSAux (w :: seen) rest

/-- First-seen deduplication: the insertion order of keys of a Python
`collections.Counter` built by counting a list. -/
def dedupFS (l : List (List Char)) : List (List Char) :=
  dedupFSAux [] l

/-- The association list underlying `Counter(ws)`: each distinct word in
first-seen order, paired with its number of occurrences. -/
def counterList (ws : List (List Char)) : List (List Char × ℕ) :=
  (dedupFS ws).map (fun w => (w, ws.count w))

/-- Ordering used to model `Counter.most_common`: higher count first; on equal
counts, smaller first-seen index first.  Python's `most_common` is a stable
sort by descending count over the counter's insertion order, which coincides
with sorting by this total order on index-tagged entries. -/
def mcRel (a b : ℕ × (List Char × ℕ)) : Prop :=
  b.2.2 < a.2.2 ∨ (a.2.2 = b.2.2 ∧ a.1 ≤ b.1)

instance : DecidableRel mcRel := fun _a _b =>
  inferInstanceAs (Decidable (_ ∨ _ ∧ _))

instance : IsTotal (ℕ × (List Char × ℕ)) mcRel where
  total a b := by
    unfold mcRel
    rcases lt_trichotomy a.2.2 b.2.2 with h | h | h
    · exact Or.inr (Or.inl h)
    · rcases Nat.le_total a.1 b.1 with h1 | h1
      · exact Or.inl (Or.inr ⟨h, h1⟩)
      · exact Or.inr (Or.inr ⟨h.symm, h1⟩)
    · exact Or.inl (Or.inl h)

instance : IsTrans (ℕ × (List Char × ℕ)) mcRel where
  trans a b c hab hbc := by
    unfold mcRel at *
    rcases hab with h | ⟨he, hi⟩ <;> rcases hbc with h2 | ⟨he2, hi2⟩
    · exact Or.inl (h2.trans h)
    · exact Or.inl (he2 ▸ h)
    · exact Or.inl (he ▸ h2)
    · exact Or.inr ⟨he.trans he2, hi.trans hi2⟩

/-- `Counter(ws).most_common(n)`. -/
def mostCommon (ws : List (List Char)) (n : ℕ) : List (List Char × ℕ) :=
  ((List.insertionSort mcRel (counterList ws).enum).map Prod.snd).take n

/-- Truthiness of the `target_keyword` argument: Python's `if target_keyword:`
is false for `None` and for the empty string. -/
def kwTruthy : Option (List Char) → Bool
  | none => false
  | some k => !k.isEmpty

/-- Scanner for the tail of the header regex: one-or-more `'#'` followed by a
whitespace character (`#+\s`). -/
def hashThenWs : List Char → Bool
  | '#' :: rest =>
    match rest with
    | '#' :: _ => hashThenWs rest
    | c :: _ => isPyWs c
    | [] => false
  | _ => false

/-- `re.search(r'\n#+\s', content) is not None`: some newline is followed by
one-or-more `'#'` and then a whitespace character. -/
def hasHeader : List Char → Bool
  | [] => false
  | '\n' :: rest => hashThenWs rest || hasHeader rest
  | _ :: rest => hasHeader rest

/-- The metrics record produced by a successful analysis (both variants
produce the same field set). -/
structure Metrics where
  word_count : ℕ
  char_count : ℕ
  char_count_no_spaces : ℕ
  paragraph_count : ℕ
  sentence_count : ℕ
  avg_words_per_sentence : ℚ
  readability_score : ℚ
  seo_score : ℕ
  top_keywords : List (List Char × ℕ)
  keyword_density : ℚ
deriving DecidableEq, Repr

/-- Result of `analyze` / `analyze_content`: either the error sentinel
dictionary or a full metrics dictionary. -/
inductive AnalyzeResult where
  | error (msg : String)
  | ok (m : Metrics)
deriving DecidableEq, Repr

/-- A metrics dictionary as received by `get_optimization_suggestions`:
any of the expected keys may be absent. -/
structure MetricsDict where
  word_count : Option ℚ
  readability_score : Option ℚ
  keyword_density : Option ℚ
  paragraph_count : Option ℚ
  avg_words_per_sentence : Option ℚ
deriving DecidableEq, Repr

/-- Python `analysis[key]`: the value when present, a `KeyError` carrying the
key name otherwise. -/
def getKey (v : Option ℚ) (key : String) : Except String ℚ :=
  match v with
  | some q => .ok q
  | none => .error key

/-- One optimization suggestion.  The numeric value interpolated into the
Python `current` f-string is kept as the exact number. -/
structure Suggestion where
  type : String
  priority : String
  suggestion : String
  current : ℚ
  target : String
deriving DecidableEq, Repr

/-- The filtered word list shared by both variants:
`[w for w in re.findall(r'\\b\\w+\\b', content.lower()) if w not in stop_words and len(w) > 2]`. -/
def filteredWords (content : List Char) : List (List Char) :=
  (findWords (content.map Char.toLower)).filter
    (fun word => !stopWords.contains word && decide (2 < word.length))

namespace ContentAnalyzer

/-- `ContentAnalyzer.get_top_keywords` (src/src/content_optimizer.py). -/
def get_top_keywords (content : List Char) : List (List Char × ℕ) :=
  mostCommon (filteredWords content) 10

/-- `ContentAnalyzer.calculate_readability`: guarded at zero sentences, then
the simplified Flesch formula clamped to `[0, 100]` and rounded to 1 place. -/
def calculate_readability (word_count sentence_count : ℕ) : ℚ :=
  if sentence_count = 0 then 0
  else
    let avg_sentence_length : ℚ := ratDiv (natQ word_count) (natQ sentence_count)
    let score := 206.835 - 1.015 * avg_sentence_length - 84.6 * 1.5
    pyRound 1 (max 0 (min 100 score))

/-- `ContentAnalyzer.calculate_keyword_density`: exact-token matches among the
regex-extracted words of the lowercased content. -/
def calculate_keyword_density (content keyword : List Char) : ℚ :=
  if keyword.isEmpty then 0
  else
    let all_words := findWords (content.map Char.toLower)
    let keyword_count := all_words.count (keyword.map Char.toLower)
    let total_words := all_words.length
    pyRound 2 (ratMul (ratDiv (natQ keyword_count) (natQ (max total_words 1))) (natQ 100))

/-- `ContentAnalyzer.calculate_seo_score`, sequential bonus accumulation. -/
def calculate_seo_score (content : List Char) (target_keyword : Option (List Char))
    (word_count : ℕ) : ℕ :=
  let score : ℕ := 0
  let score := if 300 ≤ word_count ∧ word_count ≤ 2000 then score + 25
    else if 100 < word_count then score + 15 else score
  let score := if 3 ≤ paragraphCount content then score + 20 else score
  let score := if 5 < sentenceCount content then score + 15 else score
  let score := if kwTruthy target_keyword then
      let keyword_density := calculate_keyword_density content (target_keyword.getD [])
      if 1 ≤ keyword_density ∧ keyword_density ≤ 3 then score + 25
      else if 0 < keyword_density then score + 10 else score
    else score + 15
  let score := if hasHeader content then score + 15 else score
  min 100 score

/-- `ContentAnalyzer.analyze` (src/src/content_optimizer.py). -/
def analyze (content : List Char) (target_keyword : Option (List Char)) :
    AnalyzeResult :=
  if content.isEmpty then .error "No content provided"
  else
    let words := findWords (content.map Char.toLower)
    let word_count := words.length
    let sentence_count := sentenceCount content
    .ok {
      word_count := word_count
      char_count := content.length
      char_count_no_spaces := (content.filter (fun c => c != ' ')).length
      paragraph_count := paragraphCount content
      sentence_count := sentence_count
      avg_words_per_sentence :=
        pyRound 1 (ratDiv (natQ word_count) (natQ (max sentence_count 1)))
      readability_score := calculate_readability word_count sentence_count
      seo_score := calculate_seo_score content target_keyword word_count
      top_keywords := get_top_keywords content
      keyword_density :=
        if kwTruthy target_keyword then
          calculate_keyword_density content (target_keyword.getD [])
        else 0 }

/-- Calling `analyze` with a possibly-absent content argument: `None` is falsy
and takes the same error branch as the empty string. -/
def analyzeOpt : Option (List Char) → Option (List Char) → AnalyzeResult
  | none, _ => .error "No content provided"
  | some c, kw => analyze c kw

/-- `ContentAnalyzer.get_optimization_suggestions`: four rules evaluated in a
fixed order; each dictionary access may raise `KeyError`, and the
`keyword_density` key is only read when a truthy keyword is supplied. -/
def get_optimization_suggestions (analysis : MetricsDict)
    (target_keyword : Option (List Char)) : Except String (List Suggestion) := do
  let wc ← getKey analysis.word_count "word_count"
  let s1 : List Suggestion :=
    if wc < 300 then
      [{ type := "Content Length", priority := "High",
         suggestion := "Increase content length to at least 300 words for better SEO",
         current := wc, target := "300+ words" }]
    else []
  let rs ← getKey analysis.readability_score "readability_score"
  let s2 : List Suggestion :=
    if rs < 60 then
      [{ type := "Readability", priority := "Medium",
         suggestion := "Improve readability by using shorter sentences and simpler words",
         current := rs, target := "60+ score" }]
    else []
  let s3 : List Suggestion ←
    if kwTruthy target_keyword then do
      let kd ← getKey analysis.keyword_density "keyword_density"
      pure (if kd < 1 then
        [{ type := "Keyword Optimization", priority := "High",
           suggestion := "Increase usage of target keyword \"" ++
             String.mk (target_keyword.getD []) ++ "\"",
           current := kd, target := "1-3% density" }]
      else [])
    else pure []
  let pc ← getKey analysis.paragraph_count "paragraph_count"
  let s4 : List Suggestion :=
    if pc < 3 then
      [{ type := "Content Structure", priority := "Medium",
         suggestion := "Break content into more paragraphs for better readability",
         current := pc, target := "3+ paragraphs" }]
    else []
  return s1 ++ s2 ++ s3 ++ s4

end ContentAnalyzer

namespace ContentOptimizer

/-- `ContentOptimizer.calculate_keyword_density` (src/content_optimizer.py):
substring occurrences in the lowercased content over the number of
whitespace-split tokens. -/
def calculate_keyword_density (content keyword : List Char) : ℚ :=
  if keyword.isEmpty then 0
  else
    let words := pySplit (content.map Char.toLower)
    let keyword_count := countSub (keyword.map Char.toLower) (content.map Char.toLower)
    let total_words := words.length
    pyRound 2 (ratMul (ratDiv (natQ keyword_count) (natQ (max total_words 1))) (natQ 100))

/-- `ContentOptimizer.calculate_seo_score`: same bonus structure as the other
variant, but the word count is recomputed by whitespace split and the keyword
density uses the substring variant. -/
def calculate_seo_score (content : List Char)
    (target_keyword : Option (List Char)) : ℕ :=
  let score : ℕ := 0
  let word_count := (pySplit content).length
  let score := if 300 ≤ word_count ∧ word_count ≤ 2000 then score + 25
    else if 100 < word_count then score + 15 else score
  let score := if 3 ≤ paragraphCount content then score + 20 else score
  let score := if 5 < sentenceCount content then score + 15 else score
  let score := if kwTruthy target_keyword then
      let keyword_density := calculate_keyword_density content (target_keyword.getD [])
      if 1 ≤ keyword_density ∧ keyword_density ≤ 3 then score + 25
      else if 0 < keyword_density then score + 10 else score
    else score + 15
  let score := if hasHeader content then score + 15 else score
  min 100 score

/-- `ContentOptimizer.analyze_content` (src/content_optimizer.py).  Note:
`word_count` is the whitespace-split count, and the readability formula has no
zero-sentence guard, only the `max(sentence_count, 1)` divisor. -/
def analyze_content (content : List Char)
    (target_keyword : Option (List Char)) : AnalyzeResult :=
  if content.isEmpty then .error "No content provided"
  else
    let word_count := (pySplit content).length
    let sentence_count := sentenceCount content
    let filtered_words := filteredWords content
    let avg_sentence_length : ℚ :=
      ratDiv (natQ word_count) (natQ (max sentence_count 1))
    let readability_score :=
      max 0 (min 100 (206.835 - 1.015 * avg_sentence_length - 84.6 * 1.5))
    .ok {
      word_count := word_count
      char_count := content.length
      char_count_no_spaces := (content.filter (fun c => c != ' ')).length
      paragraph_count := paragraphCount content
      sentence_count := sentence_count
      avg_words_per_sentence := pyRound 1 avg_sentence_length
      readability_score := pyRound 1 readability_score
      seo_score := calculate_seo_score content target_keyword
      top_keywords := mostCommon filtered_words 10
      keyword_density :=
        if kwTruthy target_keyword then
          calculate_keyword_density content (target_keyword.getD [])
        else 0 }

/-- `ContentOptimizer.get_optimization_suggestions`: six rules in a fixed
order; unlike the other variant it also reads `avg_words_per_sentence`
unconditionally, and has over-length and keyword-stuffing branches. -/
def get_optimization_suggestions (analysis : MetricsDict)
    (target_keyword : Option (List Char)) : Except String (List Suggestion) := do
  let wc ← getKey analysis.word_count "word_count"
  let s1 : List Suggestion :=
    if wc < 300 then
      [{ type := "Content Length", priority := "High",
         suggestion := "Increase content length to at least 300 words for better SEO",
         current := wc, target := "300+ words" }]
    else if 2000 < wc then
      [{ type := "Content Length", priority := "Medium",
         suggestion := "Consider breaking long content into multiple pages",
         current := wc, target := "300-2000 words" }]
    else []
  let rs ← getKey analysis.readability_score "readability_score"
  let s2 : List Suggestion :=
    if rs < 60 then
      [{ type := "Readability", priority := "Medium",
         suggestion := "Improve readability by using shorter sentences and simpler words",
         current := rs, target := "60+ score" }]
    else []
  let s3 : List Suggestion ←
    if kwTruthy target_keyword then do
      let kd ← getKey analysis.keyword_density "keyword_density"
      pure (if kd < 1 then
        [{ type := "Keyword Optimization", priority := "High",
           suggestion := "Increase usage of target keyword \"" ++
             String.mk (target_keyword.getD []) ++ "\"",
           current := kd, target := "1-3% density" }]
      else if 3 < kd then
        [{ type := "Keyword Optimization", priority := "Medium",
           suggestion := "Reduce keyword stuffing for \"" ++
             String.mk (target_keyword.getD []) ++ "\"",
           current := kd, target := "1-3% density" }]
      else [])
    else pure []
  let pc ← getKey analysis.paragraph_count "paragraph_count"
  let s4 : List Suggestion :=
    if pc < 3 then
      [{ type := "Content Structure", priority := "Medium",
         suggestion := "Break content into more paragraphs for better readability",
         current := pc, target := "3+ paragraphs" }]
    else []
  let av ← getKey analysis.avg_words_per_sentence "avg_words_per_sentence"
  let s5 : List Suggestion :=
    if 20 < av then
      [{ type := "Sentence Length", priority := "Low",
         suggestion := "Use shorter sentences for better readability",
         current := av, target := "15-20 words/sentence" }]
    else []
  return s1 ++ s2 ++ s3 ++ s4 ++ s5

end ContentOptimizer

/-- The JSON dictionary form of a successful metrics record: every expected
key is present. -/
def metricsToDict (m : Metrics) : MetricsDict where
  word_count := some (m.word_count : ℚ)
  readability_score := some m.readability_score
  keyword_density := some m.keyword_density
  paragraph_count := some (m.paragraph_count : ℚ)
  avg_words_per_sentence := some m.avg_words_per_sentence

/-- The dictionary seen by the suggestion engine when fed an analysis result:
the error sentinel has none of the metric keys. -/
def analysisDict : AnalyzeResult → MetricsDict
  | .error _ => ⟨none, none, none, none, none⟩
  | .ok m => metricsToDict m

/-- The round trip `suggest(analyze(text, kw), kw)` through the
`ContentAnalyzer` variant. -/
def suggestAfterAnalyze (content : List Char)
    (target_keyword : Option (List Char)) : Except String (List Suggestion) :=
  ContentAnalyzer.get_optimization_suggestions
    (analysisDict (ContentAnalyzer.analyze content target_keyword)) target_keyword

/-- Projection used to state facts about a successful analysis. -/
def wordCountOf : AnalyzeResult → Option ℕ
  | .error _ => none
  | .ok m => some m.word_count

/-- Projection used to state facts about a successful analysis. -/
def readabilityOf : AnalyzeResult → Option ℚ
  | .error _ => none
  | .ok m => some m.readability_score

/-- Projection used to state facts about a successful analysis. -/
def sentenceCountOf : AnalyzeResult → Option ℕ
  | .error _ => none
  | .ok m => some m.sentence_count

/-- Projection used to state facts about a successful analysis. -/
def densityOf : AnalyzeResult → Option ℚ
  | .error _ => none
  | .ok m => some m.keyword_density

/-- Position of the first occurrence of `w` in `l` (`l.length` if absent);
used to phrase the first-encountered tie-breaking order of `most_common`. -/
def firstIdx (w : List Char) : List (List Char) → ℕ
  | [] => 0
  | x :: rest => if x = w then 0 else firstIdx w rest + 1

/-- Projection used to state that a suggestion call raised `KeyError`. -/
def suggErr : Except String (List Suggestion) → Option String
  | .error e => some e
  | .ok _ => none

/-- Projection used to state the list a suggestion call returned. -/
def suggOk : Except String (List Suggestion) → Option (List Suggestion)
  | .ok l => some l
  | .error _ => none

/-! ### Bridging lemmas for the kernel-computable rational operations -/

theorem mkRat_eq_div' (n : ℤ) (d : ℕ) : mkRat n d = (n : ℚ) / (d : ℚ) := by
  rw [Rat.mkRat_eq_divInt, Rat.divInt_eq_div, Int.cast_natCast]

theorem ratFloor_eq (q : ℚ) : q.floor = ⌊q⌋ := by
  rw [Rat.floor_def', ← Rat.floor_def]

theorem natQ_eq (n : ℕ) : natQ n = (n : ℚ) := by
  unfold natQ
  rw [Rat.mkRat_one]
  exact_mod_cast rfl

theorem ratSub_eq_sub (a b : ℚ) : ratSub a b = a - b :=
  (Rat.sub_def' a b).symm

theorem ratMul_eq_mul (a b : ℚ) : ratMul a b = a * b := by
  unfold ratMul
  rw [Rat.mul_def, Rat.normalize_eq_mkRat]

theorem num_mul_den_div (a b : ℚ) (hb : b ≠ 0) :
    ((a.num * b.den : ℤ) : ℚ) / ((a.den * b.num : ℤ) : ℚ) = a / b := by
  have h1 : (a.den : ℚ) ≠ 0 := Nat.cast_ne_zero.mpr a.den_nz
  have h3 : (b.num : ℚ) ≠ 0 := Int.cast_ne_zero.mpr (Rat.num_ne_zero.mpr hb)
  have h2 : (b.den : ℚ) ≠ 0 := Nat.cast_ne_zero.mpr b.den_nz
  conv_rhs => rw [← Rat.num_div_den a, ← Rat.num_div_den b]
  push_cast
  field_simp

theorem ratDiv_eq_div (a b : ℚ) : ratDiv a b = a / b := by
  by_cases hb : b = 0
  · subst hb
    simp [ratDiv, Rat.mkRat_eq_divInt]
  · unfold ratDiv
    by_cases h : 0 ≤ b.num
    · rw [if_pos h, mkRat_eq_div', ← num_mul_den_div a b hb]
      have hh : ((b.num.toNat : ℕ) : ℚ) = (b.num : ℚ) := by
        exact_mod_cast Int.toNat_of_nonneg h
      push_cast
      rw [hh]
    · rw [if_neg h, mkRat_eq_div', ← num_mul_den_div a b hb]
      have hh : (((-b.num).toNat : ℕ) : ℚ) = -(b.num : ℚ) := by
        exact_mod_cast Int.toNat_of_nonneg (by omega : (0 : ℤ) ≤ -b.num)
      push_cast
      rw [hh, mul_neg, neg_div_neg_eq]

theorem roundHE_eq (q : ℚ) :
    roundHE q =
      if q - ⌊q⌋ < 1 / 2 then ⌊q⌋
      else if 1 / 2 < q - ⌊q⌋ then ⌊q⌋ + 1
      else if ⌊q⌋ % 2 = 0 then ⌊q⌋ else ⌊q⌋ + 1 := by
  unfold roundHE
  simp only [ratFloor_eq, Rat.mkRat_one, ratSub_eq_sub]
  rw [mkRat_eq_div']
  norm_num

theorem pyRound_eq (d : ℕ) (q : ℚ) :
    pyRound d q = ((roundHE (q * 10 ^ d) : ℤ) : ℚ) / ((10 : ℚ) ^ d) := by
  unfold pyRound
  rw [mkRat_eq_div', ratMul_eq_mul, natQ_eq]
  push_cast
  ring_nf

theorem roundHE_ge_floor (q : ℚ) : ⌊q⌋ ≤ roundHE q := by
  rw [roundHE_eq]
  split_ifs <;> omega

theorem roundHE_cast_le (q : ℚ) : (roundHE q : ℚ) ≤ q + 1 / 2 := by
  have hfl : (⌊q⌋ : ℚ) ≤ q := Int.floor_le q
  have hfr : q - 1 < ⌊q⌋ := Int.sub_one_lt_floor q
  rw [roundHE_eq]
  split_ifs with h1 h2 h3 <;> push_cast <;> linarith

theorem pyRound_nonneg (d : ℕ) (q : ℚ) (hq : 0 ≤ q) : 0 ≤ pyRound d q := by
  rw [pyRound_eq]
  have hp : (0 : ℚ) < (10 : ℚ) ^ d := by positivity
  apply div_nonneg _ hp.le
  have : (0 : ℤ) ≤ ⌊q * 10 ^ d⌋ := Int.floor_nonneg.mpr (by positivity)
  exact_mod_cast le_trans this (roundHE_ge_floor _)

theorem pyRound_le_100 (d : ℕ) (q : ℚ) (hq : q ≤ 100) : pyRound d q ≤ 100 := by
  rw [pyRound_eq]
  have hp : (0 : ℚ) < (10 : ℚ) ^ d := by positivity
  rw [div_le_iff₀ hp]
  have h1 : (roundHE (q * 10 ^ d) : ℚ) ≤ q * 10 ^ d + 1 / 2 := roundHE_cast_le _
  have h2 : q * 10 ^ d ≤ 100 * 10 ^ d := by nlinarith
  have h3 : (roundHE (q * 10 ^ d) : ℚ) < 100 * 10 ^ d + 1 := by linarith
  have h4 : (100 * 10 ^ d : ℚ) = ((100 * 10 ^ d : ℤ) : ℚ) := by push_cast; ring
  have h5 : roundHE (q * 10 ^ d) < 100 * 10 ^ d + 1 := by
    exact_mod_cast h4 ▸ h3
  have h6 : roundHE (q * 10 ^ d) ≤ 100 * 10 ^ d := by omega
  calc (roundHE (q * 10 ^ d) : ℚ) ≤ ((100 * 10 ^ d : ℤ) : ℚ) := by exact_mod_cast h6
    _ = 100 * 10 ^ d := by push_cast; ring

/-! ### Character-level lemmas -/

theorem char_toNat_ofNat (n : ℕ) (h : n.isValidChar) : (Char.ofNat n).toNat = n := by
  unfold Char.ofNat
  rw [dif_pos h]
  rfl

theorem toLower_eq_of_not_upper (c : Char) (h : ¬(65 ≤ c.toNat ∧ c.toNat ≤ 90)) :
    c.toLower = c := by
  unfold Char.toLower
  rw [if_neg]
  intro hc
  exact h ⟨hc.1, hc.2⟩

theorem toLower_eq_of_upper (c : Char) (h : 65 ≤ c.toNat ∧ c.toNat ≤ 90) :
    c.toLower = Char.ofNat (c.toNat + 32) := by
  unfold Char.toLower
  rw [if_pos]
  exact ⟨h.1, h.2⟩

theorem toLower_idem (c : Char) : c.toLower.toLower = c.toLower := by
  by_cases h : 65 ≤ c.toNat ∧ c.toNat ≤ 90
  · rw [toLower_eq_of_upper c h]
    apply toLower_eq_of_not_upper
    rw [char_toNat_ofNat (c.toNat + 32) (Or.inl (by omega))]
    omega
  · rw [toLower_eq_of_not_upper c h, toLower_eq_of_not_upper c h]

theorem not_upper_of_not_word (c : Char) (h : isWordChar c = false) :
    ¬(65 ≤ c.toNat ∧ c.toNat ≤ 90) := by
  intro hc
  unfold isWordChar at h
  simp [hc.1, hc.2] at h

theorem isWordChar_toLower_false (c : Char) (h : isWordChar c = false) :
    isWordChar c.toLower = false := by
  rw [toLower_eq_of_not_upper c (not_upper_of_not_word c h)]
  exact h

/-! ### Lemmas about run extraction -/

theorem runsAux_mem (p : Char → Bool) (l : List Char) :
    ∀ acc, (∀ c ∈ acc, p c = true) → ∀ w ∈ runsAux p acc l,
      (∀ c ∈ w, p c = true) ∧ (∀ c ∈ w, c ∈ acc ∨ c ∈ l) := by
  induction l with
  | nil =>
    intro acc hacc w hw
    unfold runsAux at hw
    split at hw
    · simp at hw
    · simp only [List.mem_singleton] at hw
      subst hw
      exact ⟨fun c hc => hacc c (List.mem_reverse.mp hc),
        fun c hc => Or.inl (List.mem_reverse.mp hc)⟩
  | cons c rest ih =>
    intro acc hacc w hw
    unfold runsAux at hw
    by_cases hpc : p c = true
    · rw [if_pos hpc] at hw
      have hacc' : ∀ x ∈ c :: acc, p x = true := by
        intro x hx
        rcases List.mem_cons.mp hx with h | h
        · exact h ▸ hpc
        · exact hacc x h
      obtain ⟨h1, h2⟩ := ih (c :: acc) hacc' w hw
      refine ⟨h1, fun d hd => ?_⟩
      rcases h2 d hd with h | h
      · rcases List.mem_cons.mp h with h' | h'
        · exact Or.inr (h' ▸ List.mem_cons_self c rest)
        · exact Or.inl h'
      · exact Or.inr (List.mem_cons_of_mem c h)
    · rw [if_neg hpc] at hw
      by_cases hae : acc.isEmpty
      · rw [if_pos hae] at hw
        obtain ⟨h1, h2⟩ := ih [] (by simp) w hw
        refine ⟨h1, fun d hd => ?_⟩
        rcases h2 d hd with h | h
        · simp at h
        · exact Or.inr (List.mem_cons_of_mem c h)
      · rw [if_neg hae] at hw
        rcases List.mem_cons.mp hw with h | h
        · subst h
          exact ⟨fun d hd => hacc d (List.mem_reverse.mp hd),
            fun d hd => Or.inl (List.mem_reverse.mp hd)⟩
        · obtain ⟨h1, h2⟩ := ih [] (by simp) w h
          refine ⟨h1, fun d hd => ?_⟩
          rcases h2 d hd with h' | h'
          · simp at h'
          · exact Or.inr (List.mem_cons_of_mem c h')

theorem runs_mem (p : Char → Bool) (l : List Char) :
    ∀ w ∈ runs p l, (∀ c ∈ w, p c = true) ∧ (∀ c ∈ w, c ∈ l) := by
  intro w hw
  obtain ⟨h1, h2⟩ := runsAux_mem p l [] (by simp) w hw
  refine ⟨h1, fun c hc => ?_⟩
  rcases h2 c hc with h | h
  · simp at h
  · exact h

/-! ### Lemmas about first-seen deduplication -/

theorem dedupFSAux_mem (l : List (List Char)) :
    ∀ seen, ∀ w ∈ dedupFSAux seen l, w ∈ l ∧ w ∉ seen := by
  induction l with
  | nil => intro seen w hw; simp [dedupFSAux] at hw
  | cons x rest ih =>
    intro seen w hw
    unfold dedupFSAux at hw
    by_cases hx : seen.contains x
    · rw [if_pos hx] at hw
      obtain ⟨h1, h2⟩ := ih seen w hw
      exact ⟨List.mem_cons_of_mem x h1, h2⟩
    · rw [if_neg hx] at hw
      rcases List.mem_cons.mp hw with h | h
      · have hx' : x ∉ seen := by simpa using hx
        exact ⟨List.mem_cons.mpr (Or.inl h), fun hs => hx' (h ▸ hs)⟩
      · obtain ⟨h1, h2⟩ := ih (x :: seen) w h
        exact ⟨List.mem_cons_of_mem x h1, fun hs => h2 (List.mem_cons_of_mem x hs)⟩

theorem dedupFSAux_nodup (l : List (List Char)) :
    ∀ seen, (dedupFSAux seen l).Nodup := by
  induction l with
  | nil => intro seen; simp [dedupFSAux]
  | cons x rest ih =>
    intro seen
    unfold dedupFSAux
    by_cases hx : seen.contains x
    · rw [if_pos hx]; exact ih seen
    · rw [if_neg hx]
      refine List.nodup_cons.mpr ⟨fun hmem => ?_, ih (x :: seen)⟩
      obtain ⟨_, h2⟩ := dedupFSAux_mem rest (x :: seen) x hmem
      exact h2 (List.mem_cons_self x seen)

theorem dedupFS_nodup (l : List (List Char)) : (dedupFS l).Nodup :=
  dedupFSAux_nodup l []

theorem dedupFS_subset (l : List (List Char)) : ∀ w ∈ dedupFS l, w ∈ l :=
  fun w hw => (dedupFSAux_mem l [] w hw).1

/-! ### Index bookkeeping for the stable sort -/

theorem firstIdx_eq_of_getElem? (l : List (List Char)) (hnd : l.Nodup) (i : ℕ)
    (w : List Char) (hg : l[i]? = some w) : firstIdx w l = i := by
  induction l generalizing i with
  | nil => simp at hg
  | cons b t ih =>
    cases i with
    | zero =>
      simp only [List.getElem?_cons_zero, Option.some.injEq] at hg
      subst hg
      simp [firstIdx]
    | succ i =>
      simp only [List.getElem?_cons_succ] at hg
      have hw : w ∈ t := List.getElem?_mem hg
      have hb : b ≠ w := by
        intro he
        exact (List.nodup_cons.mp hnd).1 (he ▸ hw)
      rw [firstIdx, if_neg hb, ih (List.nodup_cons.mp hnd).2 i hg]

/-! ### Lemmas about the `most_common` model -/

theorem mostCommon_length_le (ws : List (List Char)) (n : ℕ) :
    (mostCommon ws n).length ≤ n :=
  List.length_take_le n _

theorem mostCommon_mem (ws : List (List Char)) (n : ℕ) :
    ∀ p ∈ mostCommon ws n, p.1 ∈ dedupFS ws ∧ p.2 = ws.count p.1 := by
  intro p hp
  have hp1 : p ∈ (List.insertionSort mcRel (counterList ws).enum).map Prod.snd :=
    List.mem_of_mem_take hp
  obtain ⟨x, hx, hxp⟩ := List.mem_map.mp hp1
  rw [List.mem_insertionSort] at hx
  have hcl : (counterList ws)[x.1]? = some x.2 :=
    List.mem_enum_iff_getElem?.mp hx
  have hmem : x.2 ∈ counterList ws := List.getElem?_mem hcl
  obtain ⟨w, hw, hwx⟩ := List.mem_map.mp hmem
  subst hxp
  rw [← hwx]
  exact ⟨hw, rfl⟩

theorem mostCommon_sorted (ws : List (List Char)) (n : ℕ) :
    (mostCommon ws n).Pairwise (fun a b =>
      b.2 < a.2 ∨ (a.2 = b.2 ∧
        firstIdx a.1 (dedupFS ws) < firstIdx b.1 (dedupFS ws))) := by
  have s1 : List.Pairwise mcRel
      (List.insertionSort mcRel (counterList ws).enum) :=
    List.sorted_insertionSort mcRel (counterList ws).enum
  have hperm : List.Perm (List.insertionSort mcRel (counterList ws).enum)
      ((counterList ws).enum) :=
    List.perm_insertionSort mcRel (counterList ws).enum
  have s2 : ((List.insertionSort mcRel (counterList ws).enum).map
      Prod.fst).Nodup :=
    ((hperm.map Prod.fst).nodup_iff).mpr (List.nodup_enum_map_fst _)
  have s3 : List.Pairwise (fun a b => a.1 ≠ b.1)
      (List.insertionSort mcRel (counterList ws).enum) :=
    List.pairwise_map.mp s2
  have s4 : ∀ x ∈ List.insertionSort mcRel (counterList ws).enum,
      firstIdx x.2.1 (dedupFS ws) = x.1 := by
    intro x hx
    have hx2 : x ∈ (counterList ws).enum := hperm.mem_iff.mp hx
    have hg : (counterList ws)[x.1]? = some x.2 :=
      List.mem_enum_iff_getElem?.mp hx2
    unfold counterList at hg
    rw [List.getElem?_map] at hg
    cases hfs : (dedupFS ws)[x.1]? with
    | none => rw [hfs] at hg; simp at hg
    | some w =>
      rw [hfs] at hg
      have hg2 : (w, ws.count w) = x.2 := by simpa using hg
      have hx21 : x.2.1 = w := by rw [← hg2]
      rw [hx21]
      exact firstIdx_eq_of_getElem? _ (dedupFS_nodup ws) _ _ hfs
  have s5 : List.Pairwise (fun a b => mcRel a b ∧ a.1 ≠ b.1)
      (List.insertionSort mcRel (counterList ws).enum) := s1.and s3
  have s6 : List.Pairwise (fun a b =>
      b.2.2 < a.2.2 ∨ (a.2.2 = b.2.2 ∧
        firstIdx a.2.1 (dedupFS ws) < firstIdx b.2.1 (dedupFS ws)))
      (List.insertionSort mcRel (counterList ws).enum) := by
    refine s5.imp_of_mem ?_
    intro a b ha hb hr
    obtain ⟨hr, hne⟩ := hr
    rcases hr with h | ⟨he, hi⟩
    · exact Or.inl h
    · refine Or.inr ⟨he, ?_⟩
      rw [s4 a ha, s4 b hb]
      omega
  have s7 : List.Pairwise (fun a b =>
      b.2 < a.2 ∨ (a.2 = b.2 ∧
        firstIdx a.1 (dedupFS ws) < firstIdx b.1 (dedupFS ws)))
      ((List.insertionSort mcRel (counterList ws).enum).map Prod.snd) :=
    List.pairwise_map.mpr s6
  exact s7.sublist (List.take_sublist n _)

/-! ### SEO-score decomposition -/

theorem pyRound_zero (d : ℕ) : pyRound d 0 = 0 := by
  rw [pyRound_eq, roundHE_eq]
  norm_num

set_option maxHeartbeats 1000000 in
theorem analyzer_seo_score_eq (content : List Char) (kw : Option (List Char))
    (wc : ℕ) :
    ContentAnalyzer.calculate_seo_score content kw wc =
      min 100
        ((if 300 ≤ wc ∧ wc ≤ 2000 then 25 else if 100 < wc then 15 else 0) +
         (if 3 ≤ paragraphCount content then 20 else 0) +
         (if 5 < sentenceCount content then 15 else 0) +
         (if kwTruthy kw then
            (if 1 ≤ ContentAnalyzer.calculate_keyword_density content (kw.getD []) ∧
                 ContentAnalyzer.calculate_keyword_density content (kw.getD []) ≤ 3
             then 25
             else if 0 < ContentAnalyzer.calculate_keyword_density content (kw.getD [])
             then 10
             else 0)
          else 15) +
         (if hasHeader content then 15 else 0)) := by
  simp only [ContentAnalyzer.calculate_seo_score]
  generalize ContentAnalyzer.calculate_keyword_density content (kw.getD []) = d
  split_ifs <;> omega

set_option maxHeartbeats 1000000 in
theorem optimizer_seo_score_eq (content : List Char) (kw : Option (List Char)) :
    ContentOptimizer.calculate_seo_score content kw =
      min 100
        ((if 300 ≤ (pySplit content).length ∧ (pySplit content).length ≤ 2000
          then 25
          else if 100 < (pySplit content).length then 15 else 0) +
         (if 3 ≤ paragraphCount content then 20 else 0) +
         (if 5 < sentenceCount content then 15 else 0) +
         (if kwTruthy kw then
            (if 1 ≤ ContentOptimizer.calculate_keyword_density content (kw.getD []) ∧
                 ContentOptimizer.calculate_keyword_density content (kw.getD []) ≤ 3
             then 25
             else if 0 < ContentOptimizer.calculate_keyword_density content (kw.getD [])
             then 10
             else 0)
          else 15) +
         (if hasHeader content then 15 else 0)) := by
  simp only [ContentOptimizer.calculate_seo_score]
  generalize ContentOptimizer.calculate_keyword_density content (kw.getD []) = d
  split_ifs <;> omega

theorem analyzer_seo_density_zero (content : List Char) (kw : List Char) (wc : ℕ)
    (hkw : kw ≠ [])
    (hd : ContentAnalyzer.calculate_keyword_density content kw = 0) :
    ContentAnalyzer.calculate_seo_score content (some kw) wc + 15 =
      ContentAnalyzer.calculate_seo_score content none wc := by
  rw [analyzer_seo_score_eq, analyzer_seo_score_eq]
  have ht : kwTruthy (some kw) = true := by
    simp [kwTruthy, hkw]
  simp only [ht, if_true, kwTruthy, Option.getD_some, hd]
  norm_num
  split_ifs <;> omega

theorem optimizer_seo_density_zero (content : List Char) (kw : List Char)
    (hkw : kw ≠ [])
    (hd : ContentOptimizer.calculate_keyword_density content kw = 0) :
    ContentOptimizer.calculate_seo_score content (some kw) + 15 =
      ContentOptimizer.calculate_seo_score content none := by
  rw [optimizer_seo_score_eq, optimizer_seo_score_eq]
  have ht : kwTruthy (some kw) = true := by
    simp [kwTruthy, hkw]
  simp only [ht, if_true, kwTruthy, Option.getD_some, hd]
  norm_num
  split_ifs <;> omega

theorem analyzer_density_zero_of_nonword (content kw : List Char) (c : Char)
    (hc : c ∈ kw) (hw : isWordChar c = false) :
    ContentAnalyzer.calculate_keyword_density content kw = 0 := by
  have hne : ¬(kw.isEmpty = true) := by
    simp only [List.isEmpty_iff]
    exact List.ne_nil_of_mem hc
  have hcount : List.count (kw.map Char.toLower)
      (findWords (content.map Char.toLower)) = 0 := by
    rw [List.count_eq_zero]
    intro hmem
    unfold findWords at hmem
    have h1 := (runs_mem isWordChar _ _ hmem).1
    have h2 : c.toLower ∈ kw.map Char.toLower := List.mem_map_of_mem _ hc
    have h3 := h1 _ h2
    rw [isWordChar_toLower_false c hw] at h3
    exact Bool.false_ne_true h3
  simp only [ContentAnalyzer.calculate_keyword_density, if_neg hne, hcount]
  rw [ratMul_eq_mul, ratDiv_eq_div]
  simp only [natQ_eq]
  push_cast
  rw [zero_div, zero_mul, pyRound_zero]

/-! ### Helper lemmas about `analyze` and the suggestion engine -/

theorem analyzer_analyze_ok (content : List Char) (kw : Option (List Char))
    (h : content ≠ []) :
    ∃ m, ContentAnalyzer.analyze content kw = .ok m := by
  unfold ContentAnalyzer.analyze
  rw [if_neg (by simpa [List.isEmpty_iff] using h)]
  exact ⟨_, rfl⟩

theorem optimizer_analyze_ok (content : List Char) (kw : Option (List Char))
    (h : content ≠ []) :
    ∃ m, ContentOptimizer.analyze_content content kw = .ok m := by
  unfold ContentOptimizer.analyze_content
  rw [if_neg (by simpa [List.isEmpty_iff] using h)]
  exact ⟨_, rfl⟩

theorem calculate_readability_props (wc sc : ℕ) :
    0 ≤ ContentAnalyzer.calculate_readability wc sc ∧
    ContentAnalyzer.calculate_readability wc sc ≤ 100 ∧
    (sc = 0 → ContentAnalyzer.calculate_readability wc sc = 0) ∧
    (sc ≠ 0 → ContentAnalyzer.calculate_readability wc sc =
      pyRound 1 (max 0 (min 100
        (206.835 - 1.015 * ((wc : ℚ) / (sc : ℚ)) - 126.9)))) := by
  by_cases hsc : sc = 0
  · refine ⟨?_, ?_, fun _ => ?_, fun hn => absurd hsc hn⟩ <;>
      simp [ContentAnalyzer.calculate_readability, hsc]
  · have hform : ContentAnalyzer.calculate_readability wc sc =
        pyRound 1 (max 0 (min 100
          (206.835 - 1.015 * ((wc : ℚ) / (sc : ℚ)) - 126.9))) := by
      simp only [ContentAnalyzer.calculate_readability, if_neg hsc]
      rw [ratDiv_eq_div]
      simp only [natQ_eq]
      norm_num
    refine ⟨?_, ?_, fun he => absurd he hsc, fun _ => hform⟩
    · rw [hform]
      exact pyRound_nonneg _ _ (le_max_left _ _)
    · rw [hform]
      exact pyRound_le_100 _ _ (max_le (by norm_num) (min_le_left _ _))

theorem except_bind_ok {α β : Type} (a : α) (f : α → Except String β) :
    (Except.ok a : Except String α) >>= f = f a := rfl

theorem except_pure {α : Type} (a : α) :
    (pure a : Except String α) = Except.ok a := rfl

theorem analyzer_suggestions_ok (d : MetricsDict) (kw : Option (List Char))
    (h1 : d.word_count.isSome = true) (h2 : d.readability_score.isSome = true)
    (h3 : d.paragraph_count.isSome = true)
    (h4 : kwTruthy kw = true → d.keyword_density.isSome = true) :
    ∃ l, ContentAnalyzer.get_optimization_suggestions d kw = .ok l := by
  obtain ⟨wc, hwc⟩ := Option.isSome_iff_exists.mp h1
  obtain ⟨rs, hrs⟩ := Option.isSome_iff_exists.mp h2
  obtain ⟨pc, hpc⟩ := Option.isSome_iff_exists.mp h3
  cases hres : ContentAnalyzer.get_optimization_suggestions d kw with
  | ok l => exact ⟨l, rfl⟩
  | error e =>
    exfalso
    cases hkwt : kwTruthy kw with
    | true =>
      obtain ⟨kd, hkd⟩ := Option.isSome_iff_exists.mp (h4 hkwt)
      simp [ContentAnalyzer.get_optimization_suggestions, getKey,
        hwc, hrs, hpc, hkd, hkwt, except_bind_ok, except_pure] at hres
    | false =>
      simp [ContentAnalyzer.get_optimization_suggestions, getKey,
        hwc, hrs, hpc, hkwt, except_bind_ok, except_pure] at hres

theorem analyzer_suggestions_kd_low (wc rs kd pc av : ℚ) (kw : List Char)
    (hkw : kw ≠ []) (hkd : kd < 1) :
    ∃ l, ContentAnalyzer.get_optimization_suggestions
        ⟨some wc, some rs, some kd, some pc, some av⟩ (some kw) = .ok l ∧
      ∃ s ∈ l, s.type = "Keyword Optimization" ∧ s.priority = "High" := by
  have hkwt : kwTruthy (some kw) = true := by simp [kwTruthy, hkw]
  cases hres : ContentAnalyzer.get_optimization_suggestions
      ⟨some wc, some rs, some kd, some pc, some av⟩ (some kw) with
  | error e =>
    exfalso
    simp [ContentAnalyzer.get_optimization_suggestions, getKey,
      hkwt, except_bind_ok, except_pure] at hres
  | ok l =>
    refine ⟨l, rfl, ?_⟩
    simp only [ContentAnalyzer.get_optimization_suggestions, getKey,
      hkwt, except_bind_ok, except_pure, if_true] at hres
    simp only [Except.ok.injEq] at hres
    subst hres
    refine ⟨⟨"Keyword Optimization", "High",
      "Increase usage of target keyword \"" ++ String.mk kw ++ "\"",
      kd, "1-3% density"⟩, ?_, rfl, rfl⟩
    simp [List.mem_append, hkd]

theorem optimizer_suggestions_ok (d : MetricsDict) (kw : Option (List Char))
    (h1 : d.word_count.isSome = true) (h2 : d.readability_score.isSome = true)
    (h3 : d.paragraph_count.isSome = true)
    (h5 : d.avg_words_per_sentence.isSome = true)
    (h4 : kwTruthy kw = true → d.keyword_density.isSome = true) :
    ∃ l, ContentOptimizer.get_optimization_suggestions d kw = .ok l := by
  obtain ⟨wc, hwc⟩ := Option.isSome_iff_exists.mp h1
  obtain ⟨rs, hrs⟩ := Option.isSome_iff_exists.mp h2
  obtain ⟨pc, hpc⟩ := Option.isSome_iff_exists.mp h3
  obtain ⟨av, hav⟩ := Option.isSome_iff_exists.mp h5
  cases hres : ContentOptimizer.get_optimization_suggestions d kw with
  | ok l => exact ⟨l, rfl⟩
  | error e =>
    exfalso
    cases hkwt : kwTruthy kw with
    | true =>
      obtain ⟨kd, hkd⟩ := Option.isSome_iff_exists.mp (h4 hkwt)
      simp [ContentOptimizer.get_optimization_suggestions, getKey,
        hwc, hrs, hpc, hav, hkd, hkwt, except_bind_ok, except_pure] at hres
    | false =>
      simp [ContentOptimizer.get_optimization_suggestions, getKey,
        hwc, hrs, hpc, hav, hkwt, except_bind_ok, except_pure] at hres

/-! ### Claims -/

/-- C1 (counterexample): on the content `"a-b"`, `ContentAnalyzer.analyze`
reports `word_count = 2` (the two regex word matches `a` and `b`), while a
simple whitespace `split()` of the original content has exactly 1 token, so
the claim that `word_count` always equals the whitespace-split count is false
for this implementation of `analyze`. -/
theorem claim_C1_counterexample :
    wordCountOf (ContentAnalyzer.analyze ("a-b".data) none) = some 2 ∧
    (pySplit ("a-b".data)).length = 1 := by decide

/-- C1 (amended): the whitespace-split law holds for
`ContentOptimizer.analyze_content`, whose `word_count` is
`len(content.split())`; `ContentAnalyzer.analyze` instead sets `word_count`
to the number of regex `\w+` matches in the lowercased content. -/
theorem claim_C1 (content : List Char) (kw : Option (List Char))
    (h : content ≠ []) :
    (∃ m, ContentOptimizer.analyze_content content kw = .ok m ∧
      m.word_count = (pySplit content).length) ∧
    (∃ m, ContentAnalyzer.analyze content kw = .ok m ∧
      m.word_count = (findWords (content.map Char.toLower)).length) := by
  have hne : ¬(content.isEmpty = true) := by simpa [List.isEmpty_iff] using h
  constructor
  · unfold ContentOptimizer.analyze_content
    rw [if_neg hne]
    exact ⟨_, rfl, rfl⟩
  · unfold ContentAnalyzer.analyze
    rw [if_neg hne]
    exact ⟨_, rfl, rfl⟩

/-- C1 (witness): the amended claim applied to the content `"hello world"`. -/
theorem claim_C1_witness :
    ("hello world".data ≠ ([] : List Char)) ∧
    ((∃ m, ContentOptimizer.analyze_content ("hello world".data) none = .ok m ∧
      m.word_count = (pySplit ("hello world".data)).length) ∧
     (∃ m, ContentAnalyzer.analyze ("hello world".data) none = .ok m ∧
      m.word_count = (findWords ("hello world".data.map Char.toLower)).length)) :=
  ⟨by decide, claim_C1 ("hello world".data) none (by decide)⟩

/-- C2 (counterexample): the single-space content `" "` consists only of
whitespace and is non-empty, yet `analyze` does not return the error
sentinel: Python's `if not content:` is false for a non-empty whitespace
string, so the whitespace-only part of the claim is false. -/
theorem claim_C2_counterexample :
    (" ".data.all isPyWs = true) ∧ (" ".data ≠ ([] : List Char)) ∧
    ContentAnalyzer.analyze (" ".data) none ≠
      AnalyzeResult.error "No content provided" := by
  refine ⟨by decide, by decide, by decide⟩

/-- C2 (amended): `analyze` returns exactly the error sentinel for the empty
string and for an absent (`None`) content, and returns a metrics record for
every non-empty content, including whitespace-only content. -/
theorem claim_C2 (content : List Char) (kw : Option (List Char)) :
    ContentAnalyzer.analyze [] kw = .error "No content provided" ∧
    ContentAnalyzer.analyzeOpt none kw = .error "No content provided" ∧
    (content ≠ [] → ∃ m, ContentAnalyzer.analyze content kw = .ok m) :=
  ⟨rfl, rfl, fun h => analyzer_analyze_ok content kw h⟩

/-- C2 (witness): the amended claim applied to the content `"a"`. -/
theorem claim_C2_witness :
    ContentAnalyzer.analyze [] none = .error "No content provided" ∧
    (∃ m, ContentAnalyzer.analyze ("a".data) none = .ok m) :=
  ⟨(claim_C2 ("a".data) none).1,
   (claim_C2 ("a".data) none).2.2 (by decide)⟩

/-- C3 (counterexample): `get_optimization_suggestions` raises `KeyError
'word_count'` on a metrics dictionary with no fields — in particular on the
error-sentinel dictionary produced by analysing empty text — instead of
treating missing numeric fields as zero; the round trip
`suggest(analyze("", kw), kw)` therefore raises. -/
theorem claim_C3_counterexample :
    suggErr (ContentAnalyzer.get_optimization_suggestions
      ⟨none, none, none, none, none⟩ none) = some "word_count" ∧
    suggErr (suggestAfterAnalyze [] none) = some "word_count" := by
  refine ⟨by decide, by decide⟩

/-- C3 (amended): `get_optimization_suggestions` does not raise provided the
metrics dictionary carries `word_count`, `readability_score` and
`paragraph_count` (plus `keyword_density` when a truthy keyword is given;
plus `avg_words_per_sentence` for the `ContentOptimizer` variant), and the
round trip `suggest(analyze(text, kw), kw)` does not raise for non-empty
text; missing fields raise `KeyError` rather than defaulting to zero. -/
theorem claim_C3 (d : MetricsDict) (kw : Option (List Char))
    (content : List Char)
    (h1 : d.word_count.isSome = true) (h2 : d.readability_score.isSome = true)
    (h3 : d.paragraph_count.isSome = true)
    (h4 : kwTruthy kw = true → d.keyword_density.isSome = true)
    (h5 : content ≠ []) :
    (∃ l, ContentAnalyzer.get_optimization_suggestions d kw = .ok l) ∧
    (∃ l, suggestAfterAnalyze content kw = .ok l) := by
  refine ⟨analyzer_suggestions_ok d kw h1 h2 h3 h4, ?_⟩
  obtain ⟨m, hm⟩ := analyzer_analyze_ok content kw h5
  unfold suggestAfterAnalyze
  rw [hm]
  exact analyzer_suggestions_ok (metricsToDict m) kw rfl rfl rfl (fun _ => rfl)

/-- C3 (witness): the amended claim applied to a complete metrics dictionary
and the content `"a"`. -/
theorem claim_C3_witness :
    (∃ l, ContentAnalyzer.get_optimization_suggestions
      ⟨some 1, some 2, some 3, some 4, some 5⟩ none = .ok l) ∧
    (∃ l, suggestAfterAnalyze ("a".data) none = .ok l) :=
  claim_C3 ⟨some 1, some 2, some 3, some 4, some 5⟩ none ("a".data)
    rfl rfl rfl (fun h => by simp [kwTruthy] at h) (by decide)

/-- C4 (counterexample): `ContentOptimizer.analyze_content` has no
zero-sentence guard: for the content `"a"` the sentence count is 0 yet the
readability score is `round(206.835 - 1.015·1 - 126.9, 1) = 78.9`, not `0.0`,
so the guarded-at-zero part of the claim fails for this variant. -/
theorem claim_C4_counterexample :
    sentenceCountOf (ContentOptimizer.analyze_content ("a".data) none) = some 0 ∧
    readabilityOf (ContentOptimizer.analyze_content ("a".data) none) =
      some (mkRat 789 10) ∧
    (mkRat 789 10 : ℚ) ≠ 0 := by
  refine ⟨by decide, ?_, by decide⟩
  simp only [ContentOptimizer.analyze_content]
  rw [if_neg (by decide)]
  simp only [readabilityOf, Option.some.injEq]
  have h1 : (pySplit ("a".data)).length = 1 := by decide
  have h2 : sentenceCount ("a".data) = 0 := by decide
  rw [h1, h2]
  rw [ratDiv_eq_div]
  simp only [natQ_eq]
  norm_num
  rw [pyRound_eq, roundHE_eq]
  norm_num

/-- C4 (amended): for `ContentAnalyzer.analyze` the claim holds as stated:
`readability_score` lies in `[0, 100]`, equals exactly `0` whenever
`sentence_count = 0` (guarded before the division), and otherwise equals
`round` of the clamped simplified Flesch formula with constant
`126.9 = 84.6 · 1.5`; the `ContentOptimizer.analyze_content` variant lacks
the zero-sentence guard. -/
theorem claim_C4 (content : List Char) (kw : Option (List Char))
    (h : content ≠ []) :
    ∃ m, ContentAnalyzer.analyze content kw = .ok m ∧
      0 ≤ m.readability_score ∧ m.readability_score ≤ 100 ∧
      (m.sentence_count = 0 → m.readability_score = 0) ∧
      (m.sentence_count ≠ 0 → m.readability_score =
        pyRound 1 (max 0 (min 100
          (206.835 - 1.015 * ((m.word_count : ℚ) / (m.sentence_count : ℚ))
            - 126.9)))) := by
  obtain ⟨m, hm⟩ := analyzer_analyze_ok content kw h
  refine ⟨m, hm, ?_⟩
  have hread : m.readability_score =
      ContentAnalyzer.calculate_readability m.word_count m.sentence_count := by
    unfold ContentAnalyzer.analyze at hm
    rw [if_neg (by simpa [List.isEmpty_iff] using h)] at hm
    cases hm
    rfl
  obtain ⟨p1, p2, p3, p4⟩ :=
    calculate_readability_props m.word_count m.sentence_count
  rw [hread]
  exact ⟨p1, p2, p3, p4⟩

/-- C4 (witness): the amended claim applied to the content `"Hi there."`,
which has one sentence. -/
theorem claim_C4_witness :
    ("Hi there.".data ≠ ([] : List Char)) ∧
    (∃ m, ContentAnalyzer.analyze ("Hi there.".data) none = .ok m ∧
      0 ≤ m.readability_score ∧ m.readability_score ≤ 100 ∧
      (m.sentence_count = 0 → m.readability_score = 0) ∧
      (m.sentence_count ≠ 0 → m.readability_score =
        pyRound 1 (max 0 (min 100
          (206.835 - 1.015 * ((m.word_count : ℚ) / (m.sentence_count : ℚ))
            - 126.9))))) :=
  ⟨by decide, claim_C4 ("Hi there.".data) none (by decide)⟩

/-- C5: the SEO score of a successful analysis is the capped sum of the five
independent bonuses exactly as described, and is an integer in `[0, 100]`. -/
theorem claim_C5 (content : List Char) (kw : Option (List Char))
    (h : content ≠ []) :
    ∃ m, ContentAnalyzer.analyze content kw = .ok m ∧
      m.seo_score =
        min 100
          ((if 300 ≤ m.word_count ∧ m.word_count ≤ 2000 then 25
            else if 100 < m.word_count then 15 else 0) +
           (if 3 ≤ m.paragraph_count then 20 else 0) +
           (if 5 < m.sentence_count then 15 else 0) +
           (if kwTruthy kw then
              (if 1 ≤ m.keyword_density ∧ m.keyword_density ≤ 3 then 25
               else if 0 < m.keyword_density then 10 else 0)
            else 15) +
           (if hasHeader content then 15 else 0)) ∧
      m.seo_score ≤ 100 := by
  obtain ⟨m, hm⟩ := analyzer_analyze_ok content kw h
  refine ⟨m, hm, ?_, ?_⟩
  · unfold ContentAnalyzer.analyze at hm
    rw [if_neg (by simpa [List.isEmpty_iff] using h)] at hm
    cases hm
    rw [analyzer_seo_score_eq]
    cases hkwt : kwTruthy kw <;> simp [hkwt]
  · unfold ContentAnalyzer.analyze at hm
    rw [if_neg (by simpa [List.isEmpty_iff] using h)] at hm
    cases hm
    rw [analyzer_seo_score_eq]
    exact min_le_left _ _

/-- C5 (witness): the claim applied to a two-sentence content with the
keyword `"cat"`. -/
theorem claim_C5_witness :
    ("The cat sat. The cat ran.".data ≠ ([] : List Char)) ∧
    (∃ m, ContentAnalyzer.analyze ("The cat sat. The cat ran.".data)
        (some ("cat".data)) = .ok m ∧
      m.seo_score =
        min 100
          ((if 300 ≤ m.word_count ∧ m.word_count ≤ 2000 then 25
            else if 100 < m.word_count then 15 else 0) +
           (if 3 ≤ m.paragraph_count then 20 else 0) +
           (if 5 < m.sentence_count then 15 else 0) +
           (if kwTruthy (some ("cat".data)) then
              (if 1 ≤ m.keyword_density ∧ m.keyword_density ≤ 3 then 25
               else if 0 < m.keyword_density then 10 else 0)
            else 15) +
           (if hasHeader ("The cat sat. The cat ran.".data) then 15 else 0)) ∧
      m.seo_score ≤ 100) :=
  ⟨by decide, claim_C5 ("The cat sat. The cat ran.".data)
    (some ("cat".data)) (by decide)⟩

/-- C6: on the content `"SEO optimization is key for SEO. SEO is important."`
with target keyword `"SEO"`, the keyword density is `33.33` (3 occurrences
among 9 extracted words, rounded to 2 decimals), both from the standalone
keyword-density computation of each variant and as the `keyword_density`
field of each variant's analysis. -/
theorem claim_C6 :
    ContentAnalyzer.calculate_keyword_density
      ("SEO optimization is key for SEO. SEO is important.".data)
      ("SEO".data) = mkRat 3333 100 ∧
    ContentOptimizer.calculate_keyword_density
      ("SEO optimization is key for SEO. SEO is important.".data)
      ("SEO".data) = mkRat 3333 100 ∧
    densityOf (ContentAnalyzer.analyze
      ("SEO optimization is key for SEO. SEO is important.".data)
      (some ("SEO".data))) = some (mkRat 3333 100) ∧
    densityOf (ContentOptimizer.analyze_content
      ("SEO optimization is key for SEO. SEO is important.".data)
      (some ("SEO".data))) = some (mkRat 3333 100) ∧
    (mkRat 3333 100 : ℚ) = 33.33 := by
  refine ⟨by decide, by decide, by decide, by decide, ?_⟩
  rw [mkRat_eq_div']
  norm_num

/-- C7: `top_keywords` has at most 10 entries; every entry is a lowercased
non-stop-word of length above 2 paired with its frequency among the filtered
words; entries are ordered by non-increasing frequency, with ties broken by
first-encountered position during frequency counting. -/
theorem claim_C7 (content : List Char) (kw : Option (List Char))
    (h : content ≠ []) :
    ∃ m, ContentAnalyzer.analyze content kw = .ok m ∧
      m.top_keywords.length ≤ 10 ∧
      (∀ p ∈ m.top_keywords,
        p.1 ∉ stopWords ∧ 2 < p.1.length ∧ p.1.map Char.toLower = p.1 ∧
        p.2 = (filteredWords content).count p.1) ∧
      m.top_keywords.Pairwise (fun a b => b.2 ≤ a.2) ∧
      m.top_keywords.Pairwise (fun a b => b.2 < a.2 ∨ (a.2 = b.2 ∧
        firstIdx a.1 (dedupFS (filteredWords content)) <
          firstIdx b.1 (dedupFS (filteredWords content)))) := by
  obtain ⟨m, hm⟩ := analyzer_analyze_ok content kw h
  have htk : m.top_keywords = mostCommon (filteredWords content) 10 := by
    unfold ContentAnalyzer.analyze at hm
    rw [if_neg (by simpa [List.isEmpty_iff] using h)] at hm
    cases hm
    rfl
  refine ⟨m, hm, ?_, ?_, ?_, ?_⟩
  · rw [htk]
    exact mostCommon_length_le _ _
  · rw [htk]
    intro p hp
    obtain ⟨hfs, hcnt⟩ := mostCommon_mem _ _ p hp
    have hmem : p.1 ∈ filteredWords content := dedupFS_subset _ _ hfs
    unfold filteredWords at hmem
    obtain ⟨hw, hcond⟩ := List.mem_filter.mp hmem
    simp only [Bool.and_eq_true, Bool.not_eq_true', decide_eq_true_eq] at hcond
    refine ⟨?_, hcond.2, ?_, hcnt⟩
    · intro hs
      have : stopWords.contains p.1 = true := by
        simpa using hs
      rw [hcond.1] at this
      exact Bool.false_ne_true this
    · unfold findWords at hw
      have hchars := (runs_mem isWordChar _ _ hw).2
      have hlc : ∀ c ∈ p.1, Char.toLower c = c := by
        intro c hc
        obtain ⟨c2, _, hc2⟩ := List.mem_map.mp (hchars c hc)
        rw [← hc2]
        exact toLower_idem c2
      calc p.1.map Char.toLower = p.1.map id := List.map_congr_left hlc
        _ = p.1 := List.map_id _
  · rw [htk]
    refine (mostCommon_sorted _ _).imp ?_
    intro a b hab
    rcases hab with h1 | ⟨h1, _⟩ <;> omega
  · rw [htk]
    exact mostCommon_sorted _ _

/-- C7 (witness): the claim applied to a small two-sentence content. -/
theorem claim_C7_witness :
    ("Lean proofs are fun. Lean proofs compile.".data ≠ ([] : List Char)) ∧
    (∃ m, ContentAnalyzer.analyze
        ("Lean proofs are fun. Lean proofs compile.".data) none = .ok m ∧
      m.top_keywords.length ≤ 10 ∧
      (∀ p ∈ m.top_keywords,
        p.1 ∉ stopWords ∧ 2 < p.1.length ∧ p.1.map Char.toLower = p.1 ∧
        p.2 = (filteredWords
          ("Lean proofs are fun. Lean proofs compile.".data)).count p.1) ∧
      m.top_keywords.Pairwise (fun a b => b.2 ≤ a.2) ∧
      m.top_keywords.Pairwise (fun a b => b.2 < a.2 ∨ (a.2 = b.2 ∧
        firstIdx a.1 (dedupFS (filteredWords
          ("Lean proofs are fun. Lean proofs compile.".data))) <
          firstIdx b.1 (dedupFS (filteredWords
            ("Lean proofs are fun. Lean proofs compile.".data)))))) :=
  ⟨by decide, claim_C7 ("Lean proofs are fun. Lean proofs compile.".data)
    none (by decide)⟩

/-- C8 (counterexample): the `ContentOptimizer` variant of
`get_optimization_suggestions` reads `avg_words_per_sentence`
unconditionally, so on the example metrics dictionary (which lacks that key)
it raises `KeyError` instead of returning one suggestion. -/
theorem claim_C8_counterexample :
    suggErr (ContentOptimizer.get_optimization_suggestions
      ⟨some 150, some 70, some 2, some 5, none⟩ none) =
      some "avg_words_per_sentence" := by decide

/-- C8 (amended): on the metrics dictionary with word_count 150,
readability_score 70, keyword_density 2.0 and paragraph_count 5 and no
keyword, the `ContentAnalyzer` variant returns exactly one suggestion, of
type "Content Length" (produced by the first rule in the fixed evaluation
order); the `ContentOptimizer` variant instead raises `KeyError
'avg_words_per_sentence'` on this dictionary. -/
theorem claim_C8 :
    suggOk (ContentAnalyzer.get_optimization_suggestions
      ⟨some 150, some 70, some 2, some 5, none⟩ none) =
      some [⟨"Content Length", "High",
        "Increase content length to at least 300 words for better SEO",
        150, "300+ words"⟩] := by decide

/-- Helper for C9: with no keyword the SEO score never exceeds 90
(at most 25 + 20 + 15 + 15 + 15), so the 100 cap is inactive. -/
theorem analyzer_seo_none_le_90 (content : List Char) (wc : ℕ) :
    ContentAnalyzer.calculate_seo_score content none wc ≤ 90 := by
  rw [analyzer_seo_score_eq]
  simp [kwTruthy]
  split_ifs <;> omega

/-- C9: supplying a keyword of density 0 scores exactly 15 less than
supplying no keyword, and the no-keyword score is at most 90, so the 100 cap
never masks the difference; the same relation holds for the
`ContentOptimizer` variant with its own density. -/
theorem claim_C9 (content kw : List Char) (h : content ≠ []) (hkw : kw ≠ [])
    (hd : ContentAnalyzer.calculate_keyword_density content kw = 0) :
    (∃ m1 m2, ContentAnalyzer.analyze content (some kw) = .ok m1 ∧
      ContentAnalyzer.analyze content none = .ok m2 ∧
      m1.seo_score + 15 = m2.seo_score ∧ m2.seo_score ≤ 90) ∧
    (ContentOptimizer.calculate_keyword_density content kw = 0 →
      ContentOptimizer.calculate_seo_score content (some kw) + 15 =
        ContentOptimizer.calculate_seo_score content none) := by
  constructor
  · obtain ⟨m1, hm1⟩ := analyzer_analyze_ok content (some kw) h
    obtain ⟨m2, hm2⟩ := analyzer_analyze_ok content none h
    have hne : ¬(content.isEmpty = true) := by simpa [List.isEmpty_iff] using h
    have hs1 : m1.seo_score = ContentAnalyzer.calculate_seo_score content
        (some kw) (findWords (content.map Char.toLower)).length := by
      unfold ContentAnalyzer.analyze at hm1
      rw [if_neg hne] at hm1
      cases hm1
      rfl
    have hs2 : m2.seo_score = ContentAnalyzer.calculate_seo_score content
        none (findWords (content.map Char.toLower)).length := by
      unfold ContentAnalyzer.analyze at hm2
      rw [if_neg hne] at hm2
      cases hm2
      rfl
    refine ⟨m1, m2, hm1, hm2, ?_, ?_⟩
    · rw [hs1, hs2]
      exact analyzer_seo_density_zero content kw _ hkw hd
    · rw [hs2]
      exact analyzer_seo_none_le_90 content _
  · intro hd2
    exact optimizer_seo_density_zero content kw hkw hd2

/-- C9 (witness): the claim applied to `"hello world."` with the absent
keyword `"zzz"`. -/
theorem claim_C9_witness :
    ("hello world.".data ≠ ([] : List Char)) ∧
    ((∃ m1 m2, ContentAnalyzer.analyze ("hello world.".data)
        (some ("zzz".data)) = .ok m1 ∧
      ContentAnalyzer.analyze ("hello world.".data) none = .ok m2 ∧
      m1.seo_score + 15 = m2.seo_score ∧ m2.seo_score ≤ 90) ∧
    (ContentOptimizer.calculate_keyword_density ("hello world.".data)
        ("zzz".data) = 0 →
      ContentOptimizer.calculate_seo_score ("hello world.".data)
          (some ("zzz".data)) + 15 =
        ContentOptimizer.calculate_seo_score ("hello world.".data) none)) :=
  ⟨by decide, claim_C9 ("hello world.".data) ("zzz".data)
    (by decide) (by decide) (by decide)⟩

/-- C10: a keyword containing any non-word character (such as the space in
"digital marketing") can never match a regex-extracted token, so its
exact-token density is 0, the +25 keyword bonus is unreachable (the keyword
term contributes 0, making the score exactly 15 below the no-keyword score),
and the High-priority Keyword Optimization suggestion fires for every
analyzed (non-empty) content. -/
theorem claim_C10 (content kw : List Char) (c : Char) (hc : c ∈ kw)
    (hw : isWordChar c = false) :
    ContentAnalyzer.calculate_keyword_density content kw = 0 ∧
    (∀ wc, ContentAnalyzer.calculate_seo_score content (some kw) wc + 15 =
      ContentAnalyzer.calculate_seo_score content none wc) ∧
    (content ≠ [] → ∃ l, suggestAfterAnalyze content (some kw) = .ok l ∧
      ∃ s ∈ l, s.type = "Keyword Optimization" ∧ s.priority = "High") := by
  have hd := analyzer_density_zero_of_nonword content kw c hc hw
  have hkw : kw ≠ [] := List.ne_nil_of_mem hc
  refine ⟨hd, fun wc => analyzer_seo_density_zero content kw wc hkw hd,
    fun hne => ?_⟩
  obtain ⟨m, hm⟩ := analyzer_analyze_ok content (some kw) hne
  have ht : kwTruthy (some kw) = true := by simp [kwTruthy, hkw]
  have hkd : m.keyword_density = 0 := by
    unfold ContentAnalyzer.analyze at hm
    rw [if_neg (by simpa [List.isEmpty_iff] using hne)] at hm
    cases hm
    show (if kwTruthy (some kw) = true then
      ContentAnalyzer.calculate_keyword_density content ((some kw).getD [])
      else 0) = 0
    rw [if_pos ht]
    exact hd
  unfold suggestAfterAnalyze
  rw [hm]
  have hres := analyzer_suggestions_kd_low (m.word_count : ℚ)
    m.readability_score m.keyword_density (m.paragraph_count : ℚ)
    m.avg_words_per_sentence kw hkw (by rw [hkd]; norm_num)
  exact hres

/-- C10 (witness): the claim applied to the multi-word keyword
`"digital marketing"` (which contains a space) and the content `"hello."`. -/
theorem claim_C10_witness :
    (' ' ∈ "digital marketing".data ∧ isWordChar ' ' = false) ∧
    (ContentAnalyzer.calculate_keyword_density ("hello.".data)
      ("digital marketing".data) = 0 ∧
    (∀ wc, ContentAnalyzer.calculate_seo_score ("hello.".data)
        (some ("digital marketing".data)) wc + 15 =
      ContentAnalyzer.calculate_seo_score ("hello.".data) none wc) ∧
    ("hello.".data ≠ ([] : List Char) →
      ∃ l, suggestAfterAnalyze ("hello.".data)
        (some ("digital marketing".data)) = .ok l ∧
      ∃ s ∈ l, s.type = "Keyword Optimization" ∧ s.priority = "High")) :=
  ⟨⟨by decide, by decide⟩,
   claim_C10 ("hello.".data) ("digital marketing".data) ' '
     (by decide) (by decide)⟩
